import Mathlib

/-!
Verification of the image-gallery backend (`src/index.js`).

The development shallowly embeds the parts of the program that the
specification's claims are about:

* the in-memory image metadata store (`images` array) with the operations the
  route handlers perform on it: insert (upload), listAll (GET /api/images),
  updateTitle (PUT /api/images/:id), deleteById (DELETE /api/images/:id);
* the credential store and the login handler (POST /api/login), with the
  opaque cryptographic primitives (bcrypt.compare, jwt.sign, jwt.verify)
  modelled as parameters / tagged tokens;
* the authentication middleware chain (authenticateToken, isAdmin);
* the startup storage-mode selection (`mongoConnected`) as a small event
  system whose events are the settling of the connect promise and the
  handling of requests;
* the upload handler's effect sequence (remote upload, temp-file unlink,
  store insert).

JavaScript `undefined` for optional request fields is modelled with `Option`;
timestamps (`Date.now()`, ISO `createdAt` strings) are modelled as `Nat`
milliseconds; JS falsiness of strings (`title || 'Untitled'`) is modelled
explicitly (absent or empty string is falsy).
-/

namespace Gallery

/-- An image metadata record as stored in the in-memory `images` array
(`src/index.js` lines 242-248).  `title` is an `Option` because the update
handler writes the raw request-body field through (`images[imageIndex].title
= title`), which may be JS `undefined`. -/
structure ImageRec where
  _id : String
  title : Option String
  url : String
  cloudinaryId : String
  createdAt : Nat
deriving DecidableEq, Repr

/-- JS `title || 'Untitled'` (upload handler, line 233/244): `undefined` and
the empty string are falsy. -/
def jsOrUntitled (title : Option String) : String :=
  match title with
  | none => "Untitled"
  | some s => if s = "" then "Untitled" else s

/-- The record built by the in-memory branch of the upload handler
(lines 242-248): `_id` is `Date.now().toString()`, `createdAt` the current
time. -/
def mkImage (title : Option String) (url cloudinaryId : String) (now : Nat) :
    ImageRec :=
  { _id := toString now
    title := some (jsOrUntitled title)
    url := url
    cloudinaryId := cloudinaryId
    createdAt := now }

/-- The push `images.push(newImage)` (line 250): append the fresh record, returning
it together with the new store. -/
def insertImage (st : List ImageRec) (title : Option String)
    (url cloudinaryId : String) (now : Nat) : ImageRec × List ImageRec :=
  let img := mkImage title url cloudinaryId now
  (img, st ++ [img])

/-- One step of the stable insertion underlying
`images.sort((a, b) => new Date(b.createdAt) - new Date(a.createdAt))`
(line 204): the inserted record goes in front of the first record that is
not strictly newer.  ECMAScript `Array.prototype.sort` is stable, and a
stable sort by a total preorder has a unique result, so any stable sort
models it. -/
def insDesc (r : ImageRec) : List ImageRec → List ImageRec
  | [] => [r]
  | y :: ys =>
    if y.createdAt ≤ r.createdAt then r :: y :: ys else y :: insDesc r ys

/-- Stable sort by `createdAt` descending (line 204). -/
def sortDesc : List ImageRec → List ImageRec
  | [] => []
  | x :: xs => insDesc x (sortDesc xs)

/-- Listing, `GET /api/images` (in-memory branch, line 204): the stored records sorted
newest `createdAt` first. -/
def listAll (st : List ImageRec) : List ImageRec := sortDesc st

/-- Deletion, `DELETE /api/images/:id`, store effect (in-memory branch, lines 305-316):
`findIndex` locates the first record with the given `_id`; absence yields
404 (`none`); otherwise that record is spliced out and returned together
with the remaining store. -/
def deleteById (st : List ImageRec) (id : String) :
    Option (ImageRec × List ImageRec) :=
  match st with
  | [] => none
  | x :: xs =>
    if x._id = id then some (x, xs)
    else (deleteById xs id).map (fun p => (p.1, x :: p.2))

/-- Title update, `PUT /api/images/:id`, store effect (in-memory branch, lines 275-279):
`findIndex` locates the first record with the given `_id`; absence yields
404 (`none`); otherwise `images[imageIndex].title = title` overwrites the
title with the raw request-body field (possibly `undefined`), and the
updated record is returned with the new store. -/
def updateTitle (st : List ImageRec) (id : String) (title : Option String) :
    Option (ImageRec × List ImageRec) :=
  match st with
  | [] => none
  | x :: xs =>
    if x._id = id then some ({ x with title := title }, { x with title := title } :: xs)
    else (updateTitle xs id title).map (fun p => (p.1, x :: p.2))

/-- A store-mutating gallery request, as far as the image store is
concerned: a successful upload, a title update, or a delete. -/
inductive GOp where
  | upload (title : Option String) (url cloudinaryId : String) (now : Nat)
  | update (id : String) (title : Option String)
  | delete (id : String)
deriving DecidableEq, Repr

/-- The store after one gallery request (not-found updates/deletes leave the
store unchanged). -/
def applyOp (st : List ImageRec) : GOp → List ImageRec
  | .upload title url cid now => (insertImage st title url cid now).2
  | .update id title =>
    match updateTitle st id title with
    | none => st
    | some p => p.2
  | .delete id =>
    match deleteById st id with
    | none => st
    | some p => p.2

/-- The store after a sequence of gallery requests, starting from the empty
store of a fresh process. -/
def runOps (ops : List GOp) : List ImageRec :=
  ops.foldl applyOp []

/-! ## Credential store, token primitives and the login handler -/

/-- A user record.  The in-memory store seeds two of these (lines 116-129);
`password` holds the bcrypt hash; `id` models both the in-memory numeric `id`
and the persistent `_id`, as an opaque string. -/
structure UserRec where
  id : String
  email : String
  password : String
  isAdmin : Bool
deriving DecidableEq, Repr

/-- Lookup `users.find(u => u.email === email)` (line 172) / `User.findOne({email})`
(line 170): first exact-match lookup by email. -/
def findUser (users : List UserRec) (email : String) : Option UserRec :=
  users.find? (fun u => u.email = email)

/-- The claims object passed to `jwt.sign` (line 185), plus `exp` derived
from `expiresIn: '24h'`: issuance time + 24 hours, in the model's time unit
(seconds). -/
structure TokenClaims where
  userId : String
  email : String
  isAdmin : Bool
  exp : Nat
deriving DecidableEq, Repr

/-- An opaque signed token: the claims together with the secret that signed
them.  Verification succeeds exactly when the verifying secret equals the
signing secret and the token is not expired — the contract of the opaque
`jsonwebtoken` primitive. -/
structure SignedToken where
  claims : TokenClaims
  secret : String
deriving DecidableEq, Repr

/-- Signing, `jwt.sign(payload, secret, ...)`, where `secret` is
`process.env.JWT_SECRET` (line 186): an environment variable may be unset
(`none`), and `jwt.sign` with an undefined secret throws
(`Except.error`). -/
def signJwt (envSecret : Option String) (claims : TokenClaims) :
    Except Unit SignedToken :=
  match envSecret with
  | none => .error ()
  | some s => .ok { claims := claims, secret := s }

/-- The `jwt.verify(token, secret, cb)` contract: yields the claims when the
secret matches and the token is unexpired, else an error (`none`). -/
def verifyJwt (secret : String) (now : Nat) (t : SignedToken) :
    Option TokenClaims :=
  if t.secret = secret ∧ now < t.claims.exp then some t.claims else none

/-- The fallback `process.env.JWT_SECRET || 'your_jwt_secret'` — the secret the
authentication middleware verifies with (line 148).  Note the login handler
signs with `process.env.JWT_SECRET` alone, without this fallback. -/
def effectiveVerifySecret (envSecret : Option String) : String :=
  envSecret.getD "your_jwt_secret"

/-- The observable HTTP response of the login handler: status code, JSON
`message` field if present, and the `token`/`isAdmin` fields of a success
body if present. -/
structure LoginResp where
  status : Nat
  message : Option String
  token : Option SignedToken
  isAdmin : Option Bool
deriving DecidableEq, Repr

/-- Login, `POST /api/login` (lines 164-195).  `bcryptCompare password hash` models
the opaque `bcrypt.compare`; `envSecret` is `process.env.JWT_SECRET`.
Unknown email and non-matching password both yield
`401 {message: 'Invalid credentials'}`; a matching password signs a token
with the user's id, email and admin flag expiring 24 hours after `now`; a
throw from `jwt.sign` is caught and mapped to `500 {message: 'Server
error'}`. -/
def login (envSecret : Option String) (bcryptCompare : String → String → Bool)
    (users : List UserRec) (email password : String) (now : Nat) : LoginResp :=
  match findUser users email with
  | none => { status := 401, message := some "Invalid credentials", token := none, isAdmin := none }
  | some user =>
    if bcryptCompare password user.password then
      match signJwt envSecret
          { userId := user.id, email := user.email, isAdmin := user.isAdmin
            exp := now + 24 * 3600 } with
      | .error _ => { status := 500, message := some "Server error", token := none, isAdmin := none }
      | .ok tok => { status := 200, message := none, token := some tok, isAdmin := some user.isAdmin }
    else { status := 401, message := some "Invalid credentials", token := none, isAdmin := none }

/-! ## The authentication middleware chain -/

/-- Splitting a character list at every space, keeping empty pieces — the
semantics of JS `String.prototype.split(' ')` (`''.split(' ') = ['']`,
`'a  b'.split(' ') = ['a', '', 'b']`). -/
def splitSp : List Char → List (List Char)
  | [] => [[]]
  | c :: cs =>
    if c = ' ' then [] :: splitSp cs
    else
      match splitSp cs with
      | [] => [[c]]
      | w :: ws => (c :: w) :: ws

/-- The split `s.split(' ')` on strings. -/
def jsSplitSpace (s : String) : List String :=
  (splitSp s.toList).map (fun cs => String.mk cs)

/-- Extraction `const token = authHeader && authHeader.split(' ')[1]` (lines 143-146):
the token is present only when the header is present and truthy (non-empty),
the split on a single space has a second element, and that element is truthy
(non-empty).  Otherwise `!token` holds and the request is rejected 401. -/
def extractToken (authHeader : Option String) : Option String :=
  match authHeader with
  | none => none
  | some h =>
    if h = "" then none
    else
      match (jsSplitSpace h).get? 1 with
      | none => none
      | some t => if t = "" then none else some t

/-- What the middleware chain `authenticateToken, isAdmin` does with a
request: one of the three rejections, or the handler is reached with the
decoded claims attached as `req.user`. -/
inductive GateOutcome where
  | reject (status : Nat) (message : String)
  | reachHandler (user : TokenClaims)
deriving DecidableEq, Repr

/-- The middleware chain on an admin-gated route (lines 142-159):
missing token → `401 'Access denied'`; verification failure (bad signature
or expired) → `403 'Invalid token'`; verified but `!req.user.isAdmin` →
`403 'Admin access required'`; otherwise the handler runs with the decoded
claims.  `verify` is `jwt.verify` with the middleware's effective secret
baked in. -/
def adminGate (verify : String → Option TokenClaims)
    (authHeader : Option String) : GateOutcome :=
  match extractToken authHeader with
  | none => .reject 401 "Access denied"
  | some tok =>
    match verify tok with
    | none => .reject 403 "Invalid token"
    | some user =>
      if user.isAdmin then .reachHandler user
      else .reject 403 "Admin access required"

/-! ## Storage-mode selection as an event system -/

/-- Events of the process after `app.listen`: the initial
`mongoose.connect` promise settles successfully (line 35) or with an error
(line 40), or a request is handled (each handler reads `mongoConnected` to
pick the backend). -/
inductive Ev where
  | connectOk
  | connectFail
  | request
deriving DecidableEq, Repr

/-- Process state: the `mongoConnected` flag (line 29), whether the connect
promise is still pending (it settles at most once), and the backend each
handled request consulted, in order (`true` = persistent, `false` =
in-memory). -/
structure ProcState where
  mongoConnected : Bool
  connectPending : Bool
  backendLog : List Bool
deriving DecidableEq, Repr

/-- State at `app.listen` (line 327): `mongoConnected = false`, connect
promise pending, no requests handled yet. -/
def procInit : ProcState :=
  { mongoConnected := false, connectPending := true, backendLog := [] }

/-- One event: promise settlement flips `connectPending` off (and
`connectOk` sets `mongoConnected := true`, line 37); a settled promise
never settles again, so the settlement events are no-ops afterwards; a
request appends the flag value it read. -/
def stepEv (s : ProcState) : Ev → ProcState
  | .connectOk =>
    if s.connectPending then
      { s with connectPending := false, mongoConnected := true }
    else s
  | .connectFail =>
    if s.connectPending then { s with connectPending := false } else s
  | .request => { s with backendLog := s.backendLog ++ [s.mongoConnected] }

/-- The process state after a sequence of events. -/
def runEvs (evs : List Ev) : ProcState :=
  evs.foldl stepEv procInit

/-! ## The upload handler's effect sequence -/

/-- The result object of a successful `cloudinary.uploader.upload`
(line 223). -/
structure CloudRes where
  secure_url : String
  public_id : String
deriving DecidableEq, Repr

/-- The observable outcome of `POST /api/images/upload`: response status,
the image store afterwards, whether `fs.unlinkSync(file.path)` ran, and the
record in the response body if any. -/
structure UploadOut where
  status : Nat
  store : List ImageRec
  tempDeleted : Bool
  body : Option ImageRec
deriving DecidableEq, Repr

/-- Upload, `POST /api/images/upload`, after the auth gate (lines 213-257).
`file` is the multer-provided file path, absent → `400`.  `remote` is the
outcome of the awaited `cloudinary.uploader.upload`: a throw jumps to the
catch block (`500`) before the unlink and before any insert.  On success the
temp file is unlinked, then the record is built and inserted: in persistent
mode (`mongoConnected = true`) the `newImage.save()` may throw (`saveOk =
false` → catch → `500`, no record); the in-memory `images.push` always
succeeds. -/
def uploadHandler (mongoConnected : Bool) (st : List ImageRec)
    (title : Option String) (file : Option String)
    (remote : Except String CloudRes) (saveOk : Bool) (now : Nat) :
    UploadOut :=
  match file with
  | none => { status := 400, store := st, tempDeleted := false, body := none }
  | some _ =>
    match remote with
    | .error _ =>
      { status := 500, store := st, tempDeleted := false, body := none }
    | .ok r =>
      if mongoConnected ∧ ¬saveOk then
        { status := 500, store := st, tempDeleted := true, body := none }
      else
        let p := insertImage st title r.secure_url r.public_id now
        { status := 200, store := p.2, tempDeleted := true, body := some p.1 }

/-! ## C2: the admin gate's three distinct outcomes -/

/-- C2: on an admin-gated route, the middleware chain has exactly four
stable outcomes: no bearer token in the authorization header → 401 (missing
credential); token present but verification fails (bad signature or
expired) → 403 `Invalid token`; token verifies but the admin flag is
false → 403 with the distinct `Admin access required` message; token
verifies with admin flag true → the handler is reached with the decoded
claims.  The three rejections are pairwise distinct. -/
theorem adminGate_three_outcomes (verify : String → Option TokenClaims)
    (hdr : Option String) :
    (extractToken hdr = none →
      adminGate verify hdr = .reject 401 "Access denied") ∧
    (∀ t, extractToken hdr = some t → verify t = none →
      adminGate verify hdr = .reject 403 "Invalid token") ∧
    (∀ t u, extractToken hdr = some t → verify t = some u → u.isAdmin = false →
      adminGate verify hdr = .reject 403 "Admin access required") ∧
    (∀ t u, extractToken hdr = some t → verify t = some u → u.isAdmin = true →
      adminGate verify hdr = .reachHandler u) ∧
    (GateOutcome.reject 401 "Access denied" ≠ .reject 403 "Invalid token" ∧
     GateOutcome.reject 401 "Access denied" ≠ .reject 403 "Admin access required" ∧
     GateOutcome.reject 403 "Invalid token" ≠ .reject 403 "Admin access required") := by
  refine ⟨?_, ?_, ?_, ?_, by decide⟩
  · intro h; simp [adminGate, h]
  · intro t ht hv; simp [adminGate, ht, hv]
  · intro t u ht hv ha; simp [adminGate, ht, hv, ha]
  · intro t u ht hv ha; simp [adminGate, ht, hv, ha]

/-- A concrete verifier for witnesses: recognises two signed-looking token
strings, one admin and one not. -/
def demoVerify : String → Option TokenClaims := fun t =>
  if t = "tokAdmin" then some ⟨"1", "admin@gmail.com", true, 100⟩
  else if t = "tokUser" then some ⟨"2", "user@gmail.com", false, 100⟩
  else none

/-- Witness for C2: the four branches at concrete requests. -/
theorem adminGate_three_outcomes_witness :
    adminGate demoVerify none = .reject 401 "Access denied" ∧
    adminGate demoVerify (some "Bearer junk") = .reject 403 "Invalid token" ∧
    adminGate demoVerify (some "Bearer tokUser") =
      .reject 403 "Admin access required" ∧
    adminGate demoVerify (some "Bearer tokAdmin") =
      .reachHandler ⟨"1", "admin@gmail.com", true, 100⟩ :=
  ⟨(adminGate_three_outcomes demoVerify none).1 rfl,
   (adminGate_three_outcomes demoVerify (some "Bearer junk")).2.1
     "junk" (by decide) rfl,
   (adminGate_three_outcomes demoVerify (some "Bearer tokUser")).2.2.1
     "tokUser" ⟨"2", "user@gmail.com", false, 100⟩ (by decide) rfl rfl,
   (adminGate_three_outcomes demoVerify (some "Bearer tokAdmin")).2.2.2.1
     "tokAdmin" ⟨"1", "admin@gmail.com", true, 100⟩ (by decide) rfl rfl⟩

/-! ## C3: failed logins are indistinguishable -/

/-- C3: a login attempt with an email absent from the credential store and a
login attempt with a known email but a non-matching password produce
identical responses — same status, same message, same (absent) token and
admin fields. -/
theorem login_failures_indistinguishable (envSecret : Option String)
    (bc : String → String → Bool) (users : List UserRec)
    (e1 p1 e2 p2 : String) (now1 now2 : Nat) (u : UserRec)
    (h1 : findUser users e1 = none)
    (h2 : findUser users e2 = some u)
    (h3 : bc p2 u.password = false) :
    login envSecret bc users e1 p1 now1 = login envSecret bc users e2 p2 now2 := by
  simp [login, h1, h2, h3]

/-- A stand-in for `bcrypt.compare`: a password matches exactly the hash
tagged with it. -/
def demoBcrypt : String → String → Bool := fun password hash =>
  hash = "hash:" ++ password

/-- The credential store the in-memory backend is seeded with
(lines 116-129), with the model's tagged hashes. -/
def demoUsers : List UserRec :=
  [⟨"1", "admin@gmail.com", "hash:admin123", true⟩,
   ⟨"2", "user@gmail.com", "hash:password123", false⟩]

/-- Witness for C3: unknown email vs. wrong password for the seeded admin
give the same response. -/
theorem login_failures_indistinguishable_witness :
    login none demoBcrypt demoUsers "ghost@gmail.com" "whatever" 7 =
      login none demoBcrypt demoUsers "admin@gmail.com" "wrongpw" 9 :=
  login_failures_indistinguishable none demoBcrypt demoUsers
    "ghost@gmail.com" "whatever" "admin@gmail.com" "wrongpw" 7 9
    ⟨"1", "admin@gmail.com", "hash:admin123", true⟩ rfl rfl rfl

/-! ## C4: a successful login issues a faithful token -/

/-- C4: with the shared secret configured, a login with a stored user's
email and matching password returns status 200 and a token that, verified
with the shared secret at any time before expiry, decodes to claims with
the stored email and admin flag and an expiry exactly 24 hours after
issuance; the response body also carries the stored admin flag. -/
theorem login_success_token (s : String) (bc : String → String → Bool)
    (users : List UserRec) (email password : String) (now later : Nat)
    (u : UserRec)
    (hu : findUser users email = some u)
    (hp : bc password u.password = true)
    (hlate : later < now + 24 * 3600) :
    ∃ tok : SignedToken,
      (login (some s) bc users email password now).status = 200 ∧
      (login (some s) bc users email password now).token = some tok ∧
      (login (some s) bc users email password now).isAdmin = some u.isAdmin ∧
      verifyJwt s later tok = some tok.claims ∧
      tok.claims.email = u.email ∧
      tok.claims.isAdmin = u.isAdmin ∧
      tok.claims.userId = u.id ∧
      tok.claims.exp = now + 24 * 3600 := by
  refine ⟨⟨{ userId := u.id, email := u.email, isAdmin := u.isAdmin
             exp := now + 24 * 3600 }, s⟩, ?_⟩
  simp [login, hu, hp, signJwt, verifyJwt, hlate]

/-- Witness for C4: the seeded admin logs in with the correct password under
secret `"s3cret"`; the issued token verifies and carries the admin flag. -/
theorem login_success_token_witness :
    ∃ tok : SignedToken,
      (login (some "s3cret") demoBcrypt demoUsers "admin@gmail.com" "admin123" 50).status = 200 ∧
      (login (some "s3cret") demoBcrypt demoUsers "admin@gmail.com" "admin123" 50).token = some tok ∧
      (login (some "s3cret") demoBcrypt demoUsers "admin@gmail.com" "admin123" 50).isAdmin = some true ∧
      verifyJwt "s3cret" 60 tok = some tok.claims ∧
      tok.claims.email = "admin@gmail.com" ∧
      tok.claims.isAdmin = true ∧
      tok.claims.userId = "1" ∧
      tok.claims.exp = 50 + 24 * 3600 :=
  login_success_token "s3cret" demoBcrypt demoUsers "admin@gmail.com"
    "admin123" 50 60 ⟨"1", "admin@gmail.com", "hash:admin123", true⟩
    rfl rfl (by decide)

/-! ## C10: sign/verify secret mismatch when JWT_SECRET is unset -/

/-- C10: with `JWT_SECRET` unset, the middleware verifies against the
hard-coded fallback `'your_jwt_secret'`, but the login handler signs with
the raw (undefined) environment value, so `jwt.sign` throws: no login ever
returns a token, and a login with valid credentials is answered
`500 'Server error'` instead of a token. -/
theorem jwt_secret_unset_login_500 (bc : String → String → Bool)
    (users : List UserRec) (email password : String) (now : Nat) :
    effectiveVerifySecret none = "your_jwt_secret" ∧
    (∀ c : TokenClaims, signJwt none c = .error ()) ∧
    (login none bc users email password now).token = none ∧
    (∀ u, findUser users email = some u → bc password u.password = true →
      login none bc users email password now =
        { status := 500, message := some "Server error", token := none, isAdmin := none }) := by
  refine ⟨rfl, fun _ => rfl, ?_, ?_⟩
  · unfold login
    cases h : findUser users email with
    | none => simp
    | some u =>
      by_cases hp : bc password u.password = true <;>
        simp [hp, signJwt]
  · intro u hu hp
    simp [login, hu, hp, signJwt]

/-- Witness for C10: the seeded admin with the correct password gets a 500
and no token when the secret is unset. -/
theorem jwt_secret_unset_login_500_witness :
    (login none demoBcrypt demoUsers "admin@gmail.com" "admin123" 50).token = none ∧
    login none demoBcrypt demoUsers "admin@gmail.com" "admin123" 50 =
      { status := 500, message := some "Server error", token := none, isAdmin := none } :=
  ⟨(jwt_secret_unset_login_500 demoBcrypt demoUsers "admin@gmail.com" "admin123" 50).2.2.1,
   (jwt_secret_unset_login_500 demoBcrypt demoUsers "admin@gmail.com" "admin123" 50).2.2.2
     ⟨"1", "admin@gmail.com", "hash:admin123", true⟩ rfl rfl⟩

/-! ## C7: a record exists only when remote upload and insert both succeed -/

/-- C7: the upload handler changes the image store only when a file was
supplied, the remote upload succeeded, and (in persistent mode) the store
insert succeeded; when the remote upload throws, the request fails with 500
before the temp-file unlink and before any insert (store unchanged, temp
file not deleted); and when the insert fails after a successful remote
upload, still no record exists and no record is returned. -/
theorem upload_no_partial_record (mongoConnected : Bool) (st : List ImageRec)
    (title : Option String) (file : Option String)
    (remote : Except String CloudRes) (saveOk : Bool) (now : Nat) :
    ((uploadHandler mongoConnected st title file remote saveOk now).store ≠ st →
      (∃ f, file = some f) ∧ (∃ r, remote = .ok r) ∧
      (mongoConnected = true → saveOk = true)) ∧
    (∀ f e, file = some f → remote = .error e →
      uploadHandler mongoConnected st title file remote saveOk now =
        { status := 500, store := st, tempDeleted := false, body := none }) ∧
    (mongoConnected = true → saveOk = false →
      (uploadHandler mongoConnected st title file remote saveOk now).store = st ∧
      (uploadHandler mongoConnected st title file remote saveOk now).body = none) ∧
    (∀ f r, file = some f → remote = .ok r →
      (mongoConnected = true → saveOk = true) →
      uploadHandler mongoConnected st title file remote saveOk now =
        { status := 200
          store := st ++ [mkImage title r.secure_url r.public_id now]
          tempDeleted := true
          body := some (mkImage title r.secure_url r.public_id now) }) := by
  refine ⟨?_, ?_, ?_, ?_⟩
  · intro hne
    cases file with
    | none => simp [uploadHandler] at hne
    | some f =>
      cases remote with
      | error e => simp [uploadHandler] at hne
      | ok r =>
        refine ⟨⟨f, rfl⟩, ⟨r, rfl⟩, ?_⟩
        intro hmc
        by_cases hs : saveOk
        · exact hs
        · simp [uploadHandler, hmc, hs] at hne
  · intro f e hf he
    simp [uploadHandler, hf, he]
  · intro hmc hs
    cases file with
    | none => simp [uploadHandler]
    | some f =>
      cases remote with
      | error e => simp [uploadHandler]
      | ok r => simp [uploadHandler, hmc, hs]
  · intro f r hf hr hsave
    cases hmc : mongoConnected with
    | false => simp [uploadHandler, hf, hr, hmc, insertImage]
    | true => simp [uploadHandler, hf, hr, hmc, hsave hmc, insertImage]

/-- Witness for C7: in persistent mode, a remote-upload failure leaves the
store unchanged with the temp file still on disk, and a remote success with
a failing insert still creates no record; with both succeeding the record is
appended. -/
theorem upload_no_partial_record_witness :
    uploadHandler true [] (some "Sunset") (some "uploads/1-a.png")
        (.error "network") true 9 =
      { status := 500, store := [], tempDeleted := false, body := none } ∧
    (uploadHandler true [] (some "Sunset") (some "uploads/1-a.png")
        (.ok ⟨"https://cdn/x", "img1"⟩) false 9).store = [] ∧
    uploadHandler true [] (some "Sunset") (some "uploads/1-a.png")
        (.ok ⟨"https://cdn/x", "img1"⟩) true 9 =
      { status := 200
        store := [mkImage (some "Sunset") "https://cdn/x" "img1" 9]
        tempDeleted := true
        body := some (mkImage (some "Sunset") "https://cdn/x" "img1" 9) } :=
  ⟨(upload_no_partial_record true [] (some "Sunset") (some "uploads/1-a.png")
      (.error "network") true 9).2.1 "uploads/1-a.png" "network" rfl rfl,
   ((upload_no_partial_record true [] (some "Sunset") (some "uploads/1-a.png")
      (.ok ⟨"https://cdn/x", "img1"⟩) false 9).2.2.1 rfl rfl).1,
   (upload_no_partial_record true [] (some "Sunset") (some "uploads/1-a.png")
      (.ok ⟨"https://cdn/x", "img1"⟩) true 9).2.2.2 "uploads/1-a.png"
      ⟨"https://cdn/x", "img1"⟩ rfl rfl (fun _ => rfl)⟩

/-! ## Sorting lemmas for the list endpoint -/

theorem insDesc_perm (r : ImageRec) (l : List ImageRec) :
    (insDesc r l).Perm (r :: l) := by
  induction l with
  | nil => simp [insDesc]
  | cons y ys ih =>
    by_cases h : y.createdAt ≤ r.createdAt
    · simp [insDesc, h]
    · simpa [insDesc, h] using ((ih.cons y).trans (List.Perm.swap r y ys))

theorem sortDesc_perm (l : List ImageRec) : (sortDesc l).Perm l := by
  induction l with
  | nil => simp [sortDesc]
  | cons x xs ih => exact (insDesc_perm x (sortDesc xs)).trans (ih.cons x)

theorem insDesc_sorted (r : ImageRec) (l : List ImageRec)
    (hl : l.Pairwise (fun a b => b.createdAt ≤ a.createdAt)) :
    (insDesc r l).Pairwise (fun a b => b.createdAt ≤ a.createdAt) := by
  induction l with
  | nil => simp [insDesc]
  | cons y ys ih =>
    rcases List.pairwise_cons.mp hl with ⟨hy, hys⟩
    by_cases h : y.createdAt ≤ r.createdAt
    · simp only [insDesc, if_pos h]
      refine List.pairwise_cons.mpr ⟨?_, hl⟩
      intro z hz
      rcases List.mem_cons.mp hz with hz | hz
      · exact hz ▸ h
      · exact le_trans (hy z hz) h
    · simp only [insDesc, if_neg h]
      refine List.pairwise_cons.mpr ⟨?_, ih hys⟩
      intro z hz
      rcases List.mem_cons.mp ((insDesc_perm r ys).mem_iff.mp hz) with hz | hz
      · exact hz ▸ le_of_lt (lt_of_not_le h)
      · exact hy z hz

theorem sortDesc_sorted (l : List ImageRec) :
    (sortDesc l).Pairwise (fun a b => b.createdAt ≤ a.createdAt) := by
  induction l with
  | nil => simp [sortDesc]
  | cons x xs ih => exact insDesc_sorted x (sortDesc xs) ih

theorem insDesc_all_newer (r : ImageRec) (l : List ImageRec)
    (h : ∀ y ∈ l, r.createdAt < y.createdAt) :
    insDesc r l = l ++ [r] := by
  induction l with
  | nil => simp [insDesc]
  | cons y ys ih =>
    have hy : ¬ y.createdAt ≤ r.createdAt :=
      not_le_of_lt (h y (List.mem_cons_self y ys))
    simp only [insDesc, if_neg hy, List.cons_append]
    exact congrArg (y :: ·) (ih (fun z hz => h z (List.mem_cons_of_mem y hz)))

theorem sortDesc_strict_increasing (l : List ImageRec)
    (h : l.Pairwise (fun a b => a.createdAt < b.createdAt)) :
    sortDesc l = l.reverse := by
  induction l with
  | nil => simp [sortDesc]
  | cons x xs ih =>
    rcases List.pairwise_cons.mp h with ⟨hx, hxs⟩
    rw [sortDesc, ih hxs, List.reverse_cons]
    exact insDesc_all_newer x xs.reverse
      (fun y hy => hx y (List.mem_reverse.mp hy))

/-! ## C5: listing order -/

/-- C5 (amended): `listAll` returns every stored record exactly once
(a permutation of the store), ordered by `createdAt` descending
(non-strictly); inserts append to the store in insertion order, and when the
stored records' creation timestamps are strictly increasing — in particular
when no two uploads share a clock millisecond — the listing is exactly the
reverse of insertion order, so the most recently inserted record is first.
At a `createdAt` tie the stable sort keeps insertion order, so the
*earlier*-inserted of the tied records comes first (see the
counterexample). -/
theorem listAll_newest_first (st : List ImageRec) :
    (listAll st).Perm st ∧
    (listAll st).Pairwise (fun a b => b.createdAt ≤ a.createdAt) ∧
    (∀ title url cid now,
      (insertImage st title url cid now).2 = st ++ [mkImage title url cid now]) ∧
    (st.Pairwise (fun a b => a.createdAt < b.createdAt) →
      listAll st = st.reverse) :=
  ⟨sortDesc_perm st, sortDesc_sorted st, fun _ _ _ _ => rfl,
   fun h => sortDesc_strict_increasing st h⟩

/-- Witness for C5: two records inserted at times 1 and 2 list as time 2
first. -/
theorem listAll_newest_first_witness :
    (listAll ((insertImage (insertImage [] (some "a") "u1" "c1" 1).2
        (some "b") "u2" "c2" 2).2)).Perm
      ((insertImage (insertImage [] (some "a") "u1" "c1" 1).2
        (some "b") "u2" "c2" 2).2) ∧
    listAll ((insertImage (insertImage [] (some "a") "u1" "c1" 1).2
        (some "b") "u2" "c2" 2).2) =
      ((insertImage (insertImage [] (some "a") "u1" "c1" 1).2
        (some "b") "u2" "c2" 2).2).reverse :=
  ⟨(listAll_newest_first _).1,
   (listAll_newest_first ((insertImage (insertImage [] (some "a") "u1" "c1" 1).2
      (some "b") "u2" "c2" 2).2)).2.2.2 (by decide)⟩

/-- The first of two records inserted at the same millisecond (time 5). -/
def tieFirst : ImageRec := (insertImage [] (some "first") "u1" "c1" 5).1

/-- The second record inserted at the same millisecond. -/
def tieSecond : ImageRec :=
  (insertImage (insertImage [] (some "first") "u1" "c1" 5).2
    (some "second") "u2" "c2" 5).1

/-- The store holding the two same-millisecond records. -/
def tieStore : List ImageRec :=
  (insertImage (insertImage [] (some "first") "u1" "c1" 5).2
    (some "second") "u2" "c2" 5).2

/-- C5 counterexample: after two inserts at the same clock millisecond, the
listing's first element is the *earlier*-inserted record (the stable sort
keeps insertion order on a `createdAt` tie), not the most recently inserted
one — refuting "the most recently inserted first" as stated. -/
theorem listAll_tie_not_newest_first :
    listAll tieStore = [tieFirst, tieSecond] ∧
    (listAll tieStore).head? = some tieFirst ∧
    tieFirst ≠ tieSecond := by
  refine ⟨by decide, by decide, by decide⟩

/-! ## C6: insert-then-delete round trip -/

theorem deleteById_append_fresh (l : List ImageRec) (img : ImageRec)
    (h : img._id ∉ l.map ImageRec._id) :
    deleteById (l ++ [img]) img._id = some (img, l) := by
  induction l with
  | nil => simp [deleteById]
  | cons x xs ih =>
    have hx : ¬ x._id = img._id := by
      intro he
      exact h (List.mem_map.mpr ⟨x, List.mem_cons_self x xs, he⟩)
    have hxs : img._id ∉ xs.map ImageRec._id := by
      intro hm
      rcases List.mem_map.mp hm with ⟨y, hy, hye⟩
      exact h (List.mem_map.mpr ⟨y, List.mem_cons_of_mem x hy, hye⟩)
    simp [deleteById, hx, ih hxs]

/-- C6 (amended): from any store state whose records' ids do not contain
the id the clock will assign (`Date.now().toString()`), an upload followed
by `deleteById` on the freshly assigned id returns the store to exactly its
previous state — in particular the record count returns to its pre-insert
value — and the deleted id is absent from the subsequent `listAll`.  When
the fresh id collides with an existing record's id, `findIndex` deletes the
*older* record and the id remains listed (see the counterexample). -/
theorem insert_then_delete_roundtrip (st : List ImageRec)
    (title : Option String) (url cid : String) (now : Nat)
    (hfresh : toString now ∉ st.map ImageRec._id) :
    deleteById (insertImage st title url cid now).2
        (insertImage st title url cid now).1._id =
      some ((insertImage st title url cid now).1, st) ∧
    (insertImage st title url cid now).1._id ∉
      (listAll st).map ImageRec._id := by
  constructor
  · exact deleteById_append_fresh st (mkImage title url cid now) hfresh
  · intro hm
    exact hfresh (((sortDesc_perm st).map ImageRec._id).mem_iff.mp hm)

/-- Witness for C6: a store holding one record inserted at time 3; an upload
at time 7 followed by deleting the fresh id `"7"` restores the store, and
`"7"` is not among the listed ids. -/
theorem insert_then_delete_roundtrip_witness :
    deleteById (insertImage (insertImage [] (some "a") "u1" "c1" 3).2
        (some "b") "u2" "c2" 7).2
        (insertImage (insertImage [] (some "a") "u1" "c1" 3).2
          (some "b") "u2" "c2" 7).1._id =
      some ((insertImage (insertImage [] (some "a") "u1" "c1" 3).2
        (some "b") "u2" "c2" 7).1, (insertImage [] (some "a") "u1" "c1" 3).2) ∧
    (insertImage (insertImage [] (some "a") "u1" "c1" 3).2
        (some "b") "u2" "c2" 7).1._id ∉
      (listAll (insertImage [] (some "a") "u1" "c1" 3).2).map ImageRec._id :=
  insert_then_delete_roundtrip (insertImage [] (some "a") "u1" "c1" 3).2
    (some "b") "u2" "c2" 7 (by decide)

/-- C6 counterexample: the store already holds a record with id `"5"`
(inserted at millisecond 5); a new upload at the same millisecond is
assigned the same id `"5"`, and `deleteById` on the freshly assigned id
removes the *older* record: the count does return to its pre-insert value,
but the deleted id `"5"` is still present in `listAll` — refuting "the
deleted id is absent" as stated. -/
theorem delete_fresh_id_collision :
    deleteById tieStore tieSecond._id = some (tieFirst, [tieSecond]) ∧
    tieSecond._id ∈ (listAll [tieSecond]).map ImageRec._id := by
  refine ⟨by decide, by decide⟩

/-! ## C8: id freshness -/

/-- C8: two uploads handled at the same clock millisecond (1000) in the
in-memory backend are assigned the *same* id `"1000"` even though they are
distinct records, contradicting the specified per-store uniqueness of ids —
`Date.now().toString()` is not a fresh id. -/
theorem same_millisecond_duplicate_id :
    (insertImage (insertImage [] (some "first") "u1" "c1" 1000).2
        (some "second") "u2" "c2" 1000).1._id =
      (insertImage [] (some "first") "u1" "c1" 1000).1._id ∧
    (insertImage (insertImage [] (some "first") "u1" "c1" 1000).2
        (some "second") "u2" "c2" 1000).1 ≠
      (insertImage [] (some "first") "u1" "c1" 1000).1 ∧
    (insertImage (insertImage [] (some "first") "u1" "c1" 1000).2
        (some "second") "u2" "c2" 1000).2.length = 2 := by
  refine ⟨by decide, by decide, by decide⟩

/-! ## C9: non-empty titles -/

theorem jsOrUntitled_ne_empty (t : Option String) : jsOrUntitled t ≠ "" := by
  cases t with
  | none => simp [jsOrUntitled]
  | some s => by_cases h : s = "" <;> simp [jsOrUntitled, h]

theorem mem_updateTitle_store (st : List ImageRec) (id : String)
    (t : Option String) (p : ImageRec × List ImageRec)
    (h : updateTitle st id t = some p) :
    ∀ r ∈ p.2, r.title = t ∨ r ∈ st := by
  induction st generalizing p with
  | nil => simp [updateTitle] at h
  | cons x xs ih =>
    by_cases hx : x._id = id
    · simp only [updateTitle, if_pos hx, Option.some_inj] at h
      intro r hr
      rw [← h] at hr
      rcases List.mem_cons.mp hr with hr | hr
      · exact Or.inl (by rw [hr])
      · exact Or.inr (List.mem_cons_of_mem x hr)
    · simp only [updateTitle, if_neg hx] at h
      cases heq : updateTitle xs id t with
      | none => rw [heq] at h; simp at h
      | some q =>
        rw [heq] at h
        have hq : (q.1, x :: q.2) = p := Option.some_inj.mp h
        intro r hr
        rw [← hq] at hr
        rcases List.mem_cons.mp hr with hr | hr
        · exact Or.inr (hr ▸ List.mem_cons_self x xs)
        · rcases ih q heq r hr with ht | hm
          · exact Or.inl ht
          · exact Or.inr (List.mem_cons_of_mem x hm)

theorem mem_deleteById_store (st : List ImageRec) (id : String)
    (p : ImageRec × List ImageRec) (h : deleteById st id = some p) :
    ∀ r ∈ p.2, r ∈ st := by
  induction st generalizing p with
  | nil => simp [deleteById] at h
  | cons x xs ih =>
    by_cases hx : x._id = id
    · simp only [deleteById, if_pos hx, Option.some_inj] at h
      intro r hr
      rw [← h] at hr
      exact List.mem_cons_of_mem x hr
    · simp only [deleteById, if_neg hx] at h
      cases heq : deleteById xs id with
      | none => rw [heq] at h; simp at h
      | some q =>
        rw [heq] at h
        have hq : (q.1, x :: q.2) = p := Option.some_inj.mp h
        intro r hr
        rw [← hq] at hr
        rcases List.mem_cons.mp hr with hr | hr
        · exact hr ▸ List.mem_cons_self x xs
        · exact List.mem_cons_of_mem x (ih q heq r hr)

theorem applyOp_goodTitle (st : List ImageRec) (op : GOp)
    (hst : ∀ r ∈ st, r.title ≠ none ∧ r.title ≠ some "")
    (hop : ∀ id t, op = GOp.update id t → t ≠ none ∧ t ≠ some "") :
    ∀ r ∈ applyOp st op, r.title ≠ none ∧ r.title ≠ some "" := by
  cases op with
  | upload title url cid now =>
    intro r hr
    simp only [applyOp, insertImage] at hr
    rcases List.mem_append.mp hr with hr | hr
    · exact hst r hr
    · rw [List.mem_singleton.mp hr]
      refine ⟨by simp [mkImage], ?_⟩
      simp only [mkImage, ne_eq, Option.some_inj]
      exact jsOrUntitled_ne_empty title
  | update id t =>
    intro r hr
    simp only [applyOp] at hr
    cases heq : updateTitle st id t with
    | none => rw [heq] at hr; exact hst r hr
    | some p =>
      rw [heq] at hr
      rcases mem_updateTitle_store st id t p heq r hr with ht | hm
      · rw [ht]; exact hop id t rfl
      · exact hst r hm
  | delete id =>
    intro r hr
    simp only [applyOp] at hr
    cases heq : deleteById st id with
    | none => rw [heq] at hr; exact hst r hr
    | some p =>
      rw [heq] at hr
      exact hst r (mem_deleteById_store st id p heq r hr)

theorem foldl_applyOp_goodTitle (ops : List GOp) (st : List ImageRec)
    (hst : ∀ r ∈ st, r.title ≠ none ∧ r.title ≠ some "")
    (hops : ∀ op ∈ ops, ∀ id t, op = GOp.update id t → t ≠ none ∧ t ≠ some "") :
    ∀ r ∈ ops.foldl applyOp st, r.title ≠ none ∧ r.title ≠ some "" := by
  induction ops generalizing st with
  | nil => simpa using hst
  | cons op ops ih =>
    intro r hr
    rw [List.foldl_cons] at hr
    exact ih (applyOp st op)
      (applyOp_goodTitle st op hst
        (fun id t he => hops op (List.mem_cons_self op ops) id t he))
      (fun o ho => hops o (List.mem_cons_of_mem op ho)) r hr

/-- C9 (amended): an upload whose title is absent or empty creates a record
titled `"Untitled"`, and every record's title stays present and non-empty
*as long as every title-update request supplies a non-empty title*.  The
update handler itself writes the raw request-body field through, so an
update with an absent or empty title does break the invariant (see the
counterexample). -/
theorem titles_nonempty (ops : List GOp)
    (hops : ∀ op ∈ ops, ∀ id t, op = GOp.update id t → t ≠ none ∧ t ≠ some "") :
    ∀ r ∈ runOps ops, r.title ≠ none ∧ r.title ≠ some "" :=
  foldl_applyOp_goodTitle ops [] (by simp) hops

/-- Witness for C9: an upload with an absent title followed by an update to
`"Dusk"` leaves the record with the non-empty title `"Dusk"`. -/
theorem titles_nonempty_witness :
    (⟨"1", some "Dusk", "u", "c", 1⟩ : ImageRec).title ≠ none ∧
    (⟨"1", some "Dusk", "u", "c", 1⟩ : ImageRec).title ≠ some "" :=
  titles_nonempty [GOp.upload none "u" "c" 1, GOp.update "1" (some "Dusk")]
    (by
      intro op hop id t he
      rcases List.mem_cons.mp hop with h | h
      · rw [h] at he; exact GOp.noConfusion he
      · rcases List.mem_cons.mp h with h | h
        · rw [h] at he
          cases he
          exact ⟨by decide, by decide⟩
        · exact absurd h (List.not_mem_nil op))
    ⟨"1", some "Dusk", "u", "c", 1⟩ (by decide)

/-- C9 counterexample: uploading with title `"Sunset"` and then updating
with an absent title leaves the record's title absent (`undefined`) — the
update handler assigns the raw request-body field — refuting "the
title-update operation never leaves a record with an absent or empty
title". -/
theorem update_absent_title_breaks_invariant :
    runOps [GOp.upload (some "Sunset") "u" "c" 1, GOp.update "1" none] =
      [⟨"1", none, "u", "c", 1⟩] ∧
    (⟨"1", none, "u", "c", 1⟩ : ImageRec).title = none := by
  refine ⟨by decide, rfl⟩

/-! ## C1: storage-mode selection -/

theorem runEvs_inv (evs : List Ev) (s : ProcState)
    (h1 : s.backendLog.Pairwise (fun a b => a ≤ b))
    (h2 : s.mongoConnected = false → ∀ b ∈ s.backendLog, b = false) :
    (evs.foldl stepEv s).backendLog.Pairwise (fun a b => a ≤ b) ∧
    ((evs.foldl stepEv s).mongoConnected = false →
      ∀ b ∈ (evs.foldl stepEv s).backendLog, b = false) := by
  induction evs generalizing s with
  | nil => exact ⟨h1, h2⟩
  | cons e evs ih =>
    rw [List.foldl_cons]
    cases e with
    | connectOk =>
      refine ih _ ?_ ?_
      · by_cases hp : s.connectPending <;> simp [stepEv, hp, h1]
      · by_cases hp : s.connectPending
        · simp [stepEv, hp]
        · simpa [stepEv, hp] using h2
    | connectFail =>
      refine ih _ ?_ ?_
      · by_cases hp : s.connectPending <;> simp [stepEv, hp, h1]
      · by_cases hp : s.connectPending <;> simpa [stepEv, hp] using h2
    | request =>
      refine ih _ ?_ ?_
      · simp only [stepEv]
        rw [List.pairwise_append]
        refine ⟨h1, List.pairwise_singleton _ _, ?_⟩
        intro a ha b hb
        rw [List.mem_singleton.mp hb]
        cases hmc : s.mongoConnected with
        | true => exact Bool.le_true a
        | false => simp [h2 hmc a ha]
      · simp only [stepEv]
        intro hmc b hb
        rcases List.mem_append.mp hb with hb | hb
        · exact h2 hmc b hb
        · rw [List.mem_singleton.mp hb]; exact hmc

theorem runEvs_no_connectOk (evs : List Ev) (s : ProcState)
    (hmc : s.mongoConnected = false) (hok : Ev.connectOk ∉ evs) :
    (evs.foldl stepEv s).mongoConnected = false := by
  induction evs generalizing s with
  | nil => exact hmc
  | cons e evs ih =>
    rw [List.foldl_cons]
    refine ih _ ?_ (fun hm => hok (List.mem_cons_of_mem e hm))
    cases e with
    | connectOk => exact absurd (List.mem_cons_self _ _) hok
    | connectFail => by_cases hp : s.connectPending <;> simp [stepEv, hp, hmc]
    | request => simpa [stepEv] using hmc

/-- C1 (amended): the `mongoConnected` flag flips at most once, from
in-memory to persistent, when the startup connection promise resolves — so
the sequence of backends consulted by successive requests is monotone:
once any request is served from the persistent store, every later request
is too, and if the connection attempt never succeeds every request is
served from the in-memory store.  However, requests handled while the
connect promise is still pending are served from the in-memory store even
when the promise later resolves (see the counterexample): the selection is
settled asynchronously after startup, not before the first request. -/
theorem backend_monotone (evs : List Ev) :
    (runEvs evs).backendLog.Pairwise (fun a b => a ≤ b) ∧
    (Ev.connectOk ∉ evs →
      (runEvs evs).backendLog.all (fun b => b == false) = true) := by
  have hinv := runEvs_inv evs procInit List.Pairwise.nil
    (fun _ b hb => absurd hb (List.not_mem_nil b))
  refine ⟨hinv.1, ?_⟩
  intro hok
  have hmc := runEvs_no_connectOk evs procInit rfl hok
  rw [List.all_eq_true]
  intro b hb
  simpa using hinv.2 hmc b hb

/-- Witness for C1 (amended): a request, a failed connection, then another
request — the backend log is monotone and all in-memory. -/
theorem backend_monotone_witness :
    (runEvs [Ev.request, Ev.connectFail, Ev.request]).backendLog.Pairwise
      (fun a b => a ≤ b) ∧
    (runEvs [Ev.request, Ev.connectFail, Ev.request]).backendLog.all
      (fun b => b == false) = true :=
  ⟨(backend_monotone [Ev.request, Ev.connectFail, Ev.request]).1,
   (backend_monotone [Ev.request, Ev.connectFail, Ev.request]).2 (by decide)⟩

/-- C1 counterexample: the trace "request, connect promise resolves,
request" is reachable — `app.listen` runs before the connect promise
settles — and its first request is served from the in-memory store while
its second is served from the persistent store, refuting "no request
observes a different backend than any earlier request". -/
theorem early_request_other_backend :
    ¬ (∀ evs : List Ev, ∀ a ∈ (runEvs evs).backendLog,
        ∀ b ∈ (runEvs evs).backendLog, a = b) := by
  intro h
  have h01 := h [Ev.request, Ev.connectOk, Ev.request]
    false (by decide) true (by decide)
  exact absurd h01 (by decide)

end Gallery

